import Mathlib

/-!
Verification development for the token-enrichment layer of a C-family code
formatter (`src/lib/CPPFormat/FormatTokenLexer.cpp`).

The external raw scanner, the symbol table and the regex matcher are external
collaborators of the component; they appear here as parameters (a scan
function per buffer offset, an interning function, two predicates).  All
functions of the component itself are translated statement by statement from
the source file.  Source locations are byte offsets into the buffer; a
`StringRef` is modelled as an explicit character list together with the
buffer offset of its first character (the data pointer).
-/

namespace CPPFormat

/-- Raw token kinds, the subset of `tok::TokenKind` that the component
touches.  All other kinds behave uniformly and are irrelevant here. -/
inductive TokKind where
  | unknown
  | eof
  | comment
  | rawIdentifier
  | identifier
  | stringLiteral
  | lParen
  | rParen
  | less
  | greater
  | lessless
  | greatergreater
  | kwUnknownAnytype
  deriving DecidableEq

/-- The semantic token types assigned by this component (`TokenType`). -/
inductive TokenType where
  | TT_Unknown
  | TT_ImplicitStringLiteral
  | TT_ForEachMacro
  | TT_MacroBlockBegin
  | TT_MacroBlockEnd
  | TT_ConflictStart
  | TT_ConflictAlternative
  | TT_ConflictEnd
  deriving DecidableEq

/-- `LexerState` of the source: the state-stack element kind. -/
inductive LexerState where
  | normal
  | tokenStashed
  deriving DecidableEq

/-- `FormatToken`, the enriched token record.  `loc` and `length` model the
raw `Token` location and length; `textOff` models the data pointer of the
`TokenText` string reference (stale after a literal reassignment, exactly as
the C++ pointer is). -/
structure FormatToken where
  kind : TokKind
  loc : Nat
  length : Nat
  identInfo : Option (List Char)
  text : List Char
  textOff : Nat
  originalColumn : Nat
  firstLineColumnWidth : Nat
  lastLineColumnWidth : Nat
  isMultiline : Bool
  isFirst : Bool
  userNewlinesBefore : Nat
  hasUnescapedNewlineBefore : Bool
  lastNewlineOffset : Nat
  wsRangeBegin : Nat
  wsRangeEnd : Nat
  type : TokenType
  isUnterminatedLiteral : Bool
  finalized : Bool
  deriving DecidableEq

/-- Modelled from the spec: the default-constructed `FormatToken` (the
constructor lives in the missing header `FormatToken.h`).  Per the data
model of the spec, all counters start at zero and all flags start false;
the token kind starts as `unknown` and the semantic type as none. -/
def emptyFormatToken : FormatToken where
  kind := .unknown
  loc := 0
  length := 0
  identInfo := none
  text := []
  textOff := 0
  originalColumn := 0
  firstLineColumnWidth := 0
  lastLineColumnWidth := 0
  isMultiline := false
  isFirst := false
  userNewlinesBefore := 0
  hasUnescapedNewlineBefore := false
  lastNewlineOffset := 0
  wsRangeBegin := 0
  wsRangeEnd := 0
  type := .TT_Unknown
  isUnterminatedLiteral := false
  finalized := false

instance : Inhabited FormatToken := ⟨emptyFormatToken⟩

/-- Extract `len` characters of the buffer starting at `off`
(`StringRef` of the character data at a location). -/
def slice (buf : List Char) (off len : Nat) : List Char :=
  (buf.drop off).take len

/-- Vertical tab (the `\v` escape does not exist in Lean). -/
def charVT : Char := Char.ofNat 11

/-- Form feed (the `\f` escape does not exist in Lean). -/
def charFF : Char := Char.ofNat 12

/-- Display column reached after printing `text` starting at column `col`
with tab stops every `tab` columns. -/
def endColumn (text : List Char) (col tab : Nat) : Nat :=
  match text with
  | [] => col
  | c :: rest =>
      endColumn rest (if c == '\t' then col + (tab - col % tab) else col + 1) tab

/-- `encoding::columnWidthWithTabs` for the byte-oriented encoding: width of
`text` when started at `startCol`, tabs expanding to the next stop.  The
multi-byte glyph handling of the real function is external to the component
and is not exercised by any claim. -/
def columnWidthWithTabs (text : List Char) (startCol tab : Nat) : Nat :=
  endColumn text startCol tab - startCol

/-- First position of a newline character in `text`, as `Text.find` does. -/
def firstNewlinePos (text : List Char) : Option Nat :=
  match text with
  | [] => none
  | c :: rest =>
      if c == '\n' then some 0
      else (firstNewlinePos rest).map (· + 1)

/-- The suffix of `text` after its last newline
(`Text.substr(Text.find_last_of(chr(10)) + 1)`). -/
def afterLastNewline (text : List Char) : List Char :=
  (text.reverse.takeWhile (fun c => c != '\n')).reverse

/-- Horizontal whitespace trimmed from comment tails (`rtrim` set). -/
def isHorizWs (c : Char) : Bool :=
  c == ' ' || c == '\t' || c == charVT || c == charFF

/-- `StringRef.rtrim` over the horizontal-whitespace set. -/
def rtrimHorizWs (text : List Char) : List Char :=
  (text.reverse.dropWhile isHorizWs).reverse

/-- Number of consecutive backslash characters at the head of a list. -/
def countLeadingBackslashes (l : List Char) : Nat :=
  match l with
  | '\\' :: rest => countLeadingBackslashes rest + 1
  | _ => 0

/-- Drop one carriage return at the head, if present (a CR directly before
the newline is just part of a CRLF pair and is skipped first). -/
def skipCarriageReturn (l : List Char) : List Char :=
  match l with
  | '\r' :: rest => rest
  | l => l

/-- Number of consecutive backslashes immediately before position `i` of
`text`, a carriage return directly before position `i` being skipped first. -/
def backslashesBefore (text : List Char) (i : Nat) : Nat :=
  countLeadingBackslashes (skipCarriageReturn ((text.take i).reverse))

/-- The `EscapesNewline` helper of `getNextToken`: the newline at position
`i` of `text` is escaped when the number of consecutive backslashes directly
before it (after skipping one CR) is odd (`count & 1`). -/
def escapesNewline (text : List Char) (i : Nat) : Bool :=
  backslashesBefore text i % 2 == 1

/-- Search for the last newline strictly before position `from0` of the
buffer (`StringRef.rfind` of a newline with `From` = `from0`). -/
def rfindNl (buf : List Char) (from0 : Nat) : Option Nat :=
  rfindNlAux (buf.take from0) 0 none
where
  rfindNlAux : List Char → Nat → Option Nat → Option Nat
    | [], _, best => best
    | c :: rest, i, best =>
        rfindNlAux rest (i + 1) (if c == '\n' then some i else best)

/-- First position at or after `from0` holding a space or newline
(`StringRef.find_first_of` over the two-character set). -/
def findFirstSpaceOrNl (buf : List Char) (from0 : Nat) : Option Nat :=
  findAux (buf.drop from0) from0
where
  findAux : List Char → Nat → Option Nat
    | [], _ => none
    | c :: rest, j =>
        if c == ' ' || c == '\n' then some j else findAux rest (j + 1)

/-- The leading word of the physical line containing buffer position
`firstInLineOffset`: scan back to the previous newline (or the buffer
start), then take the run up to the first space or newline. -/
def conflictLineWord (buf : List Char) (firstInLineOffset : Nat) : List Char :=
  let lineOffset :=
    match rfindNl buf firstInLineOffset with
    | none => 0
    | some i => i + 1
  match findFirstSpaceOrNl buf lineOffset with
  | none => buf.drop lineOffset
  | some j => slice buf lineOffset (j - lineOffset)

/-- The conflict-marker classification chain of `tryMergeConflictMarkers`. -/
def markerType (w : List Char) : TokenType :=
  if w == "<<<<<<<".toList || w == ">>>>".toList then .TT_ConflictStart
  else if w == "|||||||".toList || w == "=======".toList || w == "====".toList then
    .TT_ConflictAlternative
  else if w == ">>>>>>>".toList || w == "<<<<".toList then .TT_ConflictEnd
  else .TT_Unknown

/-- The `FourthTokenIsLess` check of `tryMergeLessLess`: the token before
the three-token window (if any) is a less token. -/
def fourthTokenIsLess (rest : List FormatToken) : Bool :=
  match rest with
  | d :: _ => d.kind == .less
  | [] => false

/-- `tryMergeLessLess` on the reversed token stream: head = last token.
Merge `X, less, less, Y` into `X, lessless, Y` unless `X` or `Y` is less,
and only when there is no whitespace between the two less tokens. -/
def tryMergeLessLessRev (rev : List FormatToken) : Option (List FormatToken) :=
  match rev with
  | c :: b :: a :: rest =>
      if c.kind == .less || b.kind != .less || a.kind != .less ||
          fourthTokenIsLess rest then
        none
      else if b.wsRangeBegin != b.wsRangeEnd then
        none
      else
        some (c ::
          { a with
            kind := .lessless
            text := "<<".toList
            firstLineColumnWidth := a.firstLineColumnWidth + 1 } :: rest)
  | _ => none

/-- `FormatTokenLexer::tryMergeLessLess`. -/
def tryMergeLessLess (tokens : List FormatToken) : Option (List FormatToken) :=
  (tryMergeLessLessRev tokens.reverse).map List.reverse

/-- `tryMerge_TMacro` on the reversed token stream: if the last four tokens
are a token of text `_T`, a left parenthesis, a non-multi-line string
literal and a right parenthesis, collapse them into one string literal
spanning from the `_T` text start to the end of the closing parenthesis,
inheriting the position and newline metadata of the `_T` token. -/
def tryMergeTMacroRev (buf : List Char) (tab : Nat) (rev : List FormatToken) :
    Option (List FormatToken) :=
  match rev with
  | last :: str :: lp :: mac :: rest =>
      if last.kind != .rParen then none
      else if str.kind != .stringLiteral || str.isMultiline then none
      else if lp.kind != .lParen then none
      else if mac.text != "_T".toList then none
      else
        let startOff := mac.textOff
        let endOff := last.textOff + last.text.length
        let newText := slice buf startOff (endOff - startOff)
        some (
          { str with
            text := newText
            textOff := startOff
            isFirst := mac.isFirst
            lastNewlineOffset := mac.lastNewlineOffset
            wsRangeBegin := mac.wsRangeBegin
            wsRangeEnd := mac.wsRangeEnd
            originalColumn := mac.originalColumn
            firstLineColumnWidth :=
              columnWidthWithTabs newText mac.originalColumn tab
            userNewlinesBefore := mac.userNewlinesBefore
            hasUnescapedNewlineBefore := mac.hasUnescapedNewlineBefore } :: rest)
  | _ => none

/-- `FormatTokenLexer::tryMerge_TMacro`. -/
def tryMerge_TMacro (buf : List Char) (tab : Nat) (tokens : List FormatToken) :
    Option (List FormatToken) :=
  (tryMergeTMacroRev buf tab tokens.reverse).map List.reverse

/-- The tail pattern that the macro-string merge actually requires of the
last four stream tokens: a right parenthesis, a non-multi-line string
literal, a left parenthesis, and a token of exact text `_T` (the kind of
the `_T` token is not examined by the source). -/
def tMacroTailShape (tokens : List FormatToken) : Bool :=
  match tokens.reverse with
  | last :: str :: lp :: mac :: _ =>
      last.kind == .rParen && str.kind == .stringLiteral && !str.isMultiline &&
        lp.kind == .lParen && mac.text == "_T".toList
  | _ => false

/-- `FormatTokenLexer::tryMergeConflictMarkers`.  Result `none` models the
undefined C++ behaviour of reading `Tokens[FirstInLineIndex]` out of range
(possible only after a mid-line `_T` merge swallowed a line start); result
`some none` is the no-change case; `some (some ts)` is the merged stream.
When `firstInLineIndex` is the index of the last token itself, the pushed
`Next` pointer aliases the collapsed slot, so the mutated token appears
twice; the `if` below reproduces that aliasing. -/
def tryMergeConflictMarkers (buf : List Char) (firstInLineIndex : Nat)
    (tokens : List FormatToken) : Option (Option (List FormatToken)) :=
  match tokens.getLast? with
  | none => some none
  | some back =>
      if back.userNewlinesBefore == 0 && back.kind != .eof then some none
      else
        match tokens[firstInLineIndex]? with
        | none => none
        | some fil =>
            let ty := markerType (conflictLineWord buf fil.loc)
            if ty == .TT_Unknown then some none
            else
              let m := { fil with type := ty, kind := .kwUnknownAnytype }
              some (some (tokens.take firstInLineIndex ++ [m] ++
                [if firstInLineIndex + 1 == tokens.length then m else back]))

/-- The format-disable sentinel texts (exact comment texts). -/
def clangFormatOnLine : List Char := "// clang-format on".toList

/-- Block-comment form of the format-on sentinel. -/
def clangFormatOnBlock : List Char := "/* clang-format on */".toList

/-- Line-comment form of the format-off sentinel. -/
def clangFormatOffLine : List Char := "// clang-format off".toList

/-- Block-comment form of the format-off sentinel. -/
def clangFormatOffBlock : List Char := "/* clang-format off */".toList

/-- A comment token whose text is exactly a format-on sentinel. -/
def isOnSentinel (kind : TokKind) (text : List Char) : Bool :=
  kind == .comment && (text == clangFormatOnLine || text == clangFormatOnBlock)

/-- A comment token whose text is exactly a format-off sentinel. -/
def isOffSentinel (kind : TokKind) (text : List Char) : Bool :=
  kind == .comment && (text == clangFormatOffLine || text == clangFormatOffBlock)

/-- Modelled from the spec: the external symbol table interns a raw
identifier and yields its language-token kind.  Keyword classification is
external to the component; every raw identifier is classified as a plain
identifier here, which is all the claims consult (the preprocessor-define
distinction goes through `ppKeywordIsDefine` on the interned text). -/
def internTokenKind (_text : List Char) : TokKind := .identifier

/-- Modelled from the spec: `IdentifierInfo::getPPKeywordID` equals
`pp_define` exactly for the interned text `define`. -/
def ppKeywordIsDefine (s : List Char) : Bool := s == "define".toList

/-- Immutable per-pass inputs: the source buffer, the external raw scanner
(kind and length of the raw token starting at each buffer offset), and the
style configuration. -/
structure ScanCfg where
  buffer : List Char
  scan : Nat → TokKind × Nat
  tabWidth : Nat
  forEachMacros : List (List Char)
  macroBlockBegin : List Char → Bool
  macroBlockEnd : List Char → Bool

/-- The mutable scanner-side state of `FormatTokenLexer`: everything
`getNextToken` reads or writes other than the token stream itself. -/
structure ScanState where
  lexOff : Nat
  isFirstToken : Bool
  stateStack : List LexerState
  column : Nat
  trailingWhitespace : Nat
  formattingDisabled : Bool
  formatTok : FormatToken

/-- The whole lexer state: configuration, scanner state, produced stream and
the first-in-line index. -/
structure FormatTokenLexer where
  cfg : ScanCfg
  scanSt : ScanState
  tokens : List FormatToken
  firstInLineIndex : Nat

/-- `FormatTokenLexer::readRawToken`: pull one raw token from the scanner
into the given (possibly partially folded) `FormatToken`, reclassify a
quote-leading unknown token as an unterminated string literal, and track the
format-disable sentinels.  The on sentinel clears the flag before the token
is marked; the off sentinel sets it after. -/
def readRawToken (cfg : ScanCfg) (ss : ScanState) (ft : FormatToken) :
    FormatToken × ScanState :=
  let kl := cfg.scan ss.lexOff
  let text := slice cfg.buffer ss.lexOff kl.2
  let ft1 := { ft with
    kind := kl.1, loc := ss.lexOff, length := kl.2,
    text := text, textOff := ss.lexOff, identInfo := none }
  let ft2 :=
    if ft1.kind == .unknown && text.head? == some '"' then
      { ft1 with kind := .stringLiteral, isUnterminatedLiteral := true }
    else ft1
  let disabled1 :=
    if isOnSentinel ft2.kind ft2.text then false else ss.formattingDisabled
  let ft3 := { ft2 with finalized := disabled1 }
  let disabled2 :=
    if isOffSentinel ft2.kind ft2.text then true else disabled1
  (ft3, { ss with lexOff := ss.lexOff + kl.2, formattingDisabled := disabled2 })

/-- `FormatTokenLexer::getStashedToken`: synthesize the second one-character
token of a split two-character operator.  The raw token record of the
current token is copied wholesale (its length field still holds the original
two-character length), the location moves one byte past the first character,
the preceding-whitespace range is empty at that location, the column width
is one and the original column is one past that of the first half. -/
def getStashedToken (ss : ScanState) : FormatToken × ScanState :=
  let prev := ss.formatTok
  let tokLoc := prev.loc + (prev.length - 1)
  let ft := { emptyFormatToken with
    kind := prev.kind
    loc := tokLoc
    length := prev.length
    identInfo := prev.identInfo
    wsRangeBegin := tokLoc
    wsRangeEnd := tokLoc
    text := prev.text
    textOff := prev.textOff
    firstLineColumnWidth := 1
    originalColumn := prev.originalColumn + 1 }
  (ft, { ss with formatTok := ft })

/-- One character of the whitespace-folding scan (the `switch` of the trivia
loop): `full` is the whole trivia text, `i` the position of `c` in it,
`next` the following character, `wsLen` the whitespace length accumulated
before this trivia token.  Returns the updated pending token and column. -/
def foldWsChar (tab wsLen : Nat) (full : List Char) (i : Nat) (c : Char)
    (next : Option Char) (ft : FormatToken) (col : Nat) : FormatToken × Nat :=
  if c == '\n' then
    ({ ft with
        userNewlinesBefore := ft.userNewlinesBefore + 1
        hasUnescapedNewlineBefore := !(escapesNewline full i)
        lastNewlineOffset := wsLen + i + 1 }, 0)
  else if c == '\r' then
    ({ ft with lastNewlineOffset := wsLen + i + 1 }, 0)
  else if c == charFF || c == charVT then (ft, 0)
  else if c == ' ' then (ft, col + 1)
  else if c == '\t' then (ft, col + (tab - col % tab))
  else if c == '\\' then
    (if next == some '\r' || next == some '\n' then ft
     else { ft with type := .TT_ImplicitStringLiteral }, col)
  else ({ ft with type := .TT_ImplicitStringLiteral }, col)

/-- The character scan over one trivia token text; stops early when the
pending token has been reclassified as an implicit string literal. -/
def foldText (tab wsLen : Nat) (full : List Char) :
    List Char → Nat → FormatToken → Nat → FormatToken × Nat
  | [], _, ft, col => (ft, col)
  | c :: rest, i, ft, col =>
      let r := foldWsChar tab wsLen full i c rest.head? ft col
      if r.1.type == .TT_ImplicitStringLiteral then r
      else foldText tab wsLen full rest (i + 1) r.1 r.2

/-- The whitespace-folding loop of `getNextToken`: while the current raw
token is of unknown kind, fold its characters into the pending token
metadata and read the next raw token; abort folding when the token turns
into an implicit string literal.  Fueled; `none` means the fuel ran out. -/
def foldTrivia (cfg : ScanCfg) : Nat → ScanState → FormatToken → Nat →
    Option (FormatToken × ScanState × Nat)
  | 0, _, _, _ => none
  | fuel + 1, ss, ft, wsLen =>
      if ft.kind != .unknown then some (ft, ss, wsLen)
      else
        let r := foldText cfg.tabWidth wsLen ft.text ft.text 0 ft ss.column
        let ss1 := { ss with column := r.2 }
        if r.1.type == .TT_ImplicitStringLiteral then some (r.1, ss1, wsLen)
        else
          let wsLen1 := wsLen + r.1.length
          let rr := readRawToken cfg ss1 r.1
          foldTrivia cfg fuel rr.2 rr.1 wsLen1

/-- The escaped-newline prefix strip: count and remove leading
backslash-newline pairs of the token text. -/
def stripEscapes : List Char → Nat × List Char
  | '\\' :: '\n' :: rest =>
      let r := stripEscapes rest
      (r.1 + 1, r.2)
  | t => (0, t)

/-- The guard of the for-each tagging: the previous stream token exists, has
identifier information, and its preprocessor keyword id is `define`. -/
def prevTokenIsPPDefine (prev : Option FormatToken) : Bool :=
  match prev with
  | some p =>
      match p.identInfo with
      | some s => ppKeywordIsDefine s
      | none => false
  | none => false

/-- The interned identifier of the token is a member of the configured
for-each macro name set (pointer membership under interning equals exact
text membership). -/
def identInForEachSet (forEachMacros : List (List Char)) (ft : FormatToken) :
    Bool :=
  match ft.identInfo with
  | some s => forEachMacros.contains s
  | none => false

/-- The classification step of `getNextToken` (lines 433 to 453): a token
whose interned identifier is in the for-each set is tagged for-each unless
the previous stream token interns to the preprocessor define keyword;
otherwise an identifier matching the macro-block patterns is tagged begin or
end. -/
def classifyToken (forEachMacros : List (List Char))
    (mbBegin mbEnd : List Char → Bool)
    (prev : Option FormatToken) (ft : FormatToken) : FormatToken :=
  let prevIsDefine := prevTokenIsPPDefine prev
  let isForEach := identInForEachSet forEachMacros ft
  if !prevIsDefine && isForEach then { ft with type := .TT_ForEachMacro }
  else if ft.kind == .identifier then
    if mbBegin ft.text then { ft with type := .TT_MacroBlockBegin }
    else if mbEnd ft.text then { ft with type := .TT_MacroBlockEnd }
    else ft
  else ft

/-- `FormatTokenLexer::getNextToken`, parametrised over whether two-character
shift tokens are split (`split = true` is the source behaviour; `split =
false` is the direct single-token scan used as the comparison baseline of
the refinement claim).  `prev` is the last token of the stream, consulted
only by the classifier.  Fueled through the trivia loop. -/
def getNextTokenAux (split : Bool) (wsFuel : Nat) (cfg : ScanCfg)
    (prev : Option FormatToken) (ss : ScanState) :
    Option (FormatToken × ScanState) :=
  if ss.stateStack.head? == some .tokenStashed then
    let ss := { ss with stateStack := ss.stateStack.tail }
    some (getStashedToken ss)
  else
    let r0 := readRawToken cfg ss emptyFormatToken
    let whitespaceStart := r0.1.loc - r0.2.trailingWhitespace
    let ft1 := { r0.1 with isFirst := r0.2.isFirstToken }
    let ss1 := { r0.2 with isFirstToken := false }
    match foldTrivia cfg wsFuel ss1 ft1 ss1.trailingWhitespace with
    | none => none
    | some (ft2, ss2, wsLen2) =>
        -- escaped newlines leading the token text count as whitespace
        let sr := stripEscapes ft2.text
        let ft3 :=
          if sr.1 == 0 then ft2
          else { ft2 with
            userNewlinesBefore := ft2.userNewlinesBefore + sr.1
            lastNewlineOffset := 2
            text := sr.2
            textOff := ft2.textOff + 2 * sr.1 }
        let ss3 := if sr.1 == 0 then ss2 else { ss2 with column := 0 }
        let wsLen3 := wsLen2 + 2 * sr.1
        let ft4 := { ft3 with
          wsRangeBegin := whitespaceStart
          wsRangeEnd := whitespaceStart + wsLen3
          originalColumn := ss3.column }
        let st5 : FormatToken × ScanState :=
          if ft4.kind == .comment then
            let trimmed := rtrimHorizWs ft4.text
            ({ ft4 with text := trimmed },
             { ss3 with trailingWhitespace := ft4.text.length - trimmed.length })
          else if ft4.kind == .rawIdentifier then
            ({ ft4 with identInfo := some ft4.text, kind := internTokenKind ft4.text },
             { ss3 with trailingWhitespace := 0 })
          else if ft4.kind == .greatergreater && split then
            ({ ft4 with kind := .greater, text := ft4.text.take 1 },
             { ss3 with
               trailingWhitespace := 0
               column := ss3.column + 1
               stateStack := .tokenStashed :: ss3.stateStack })
          else if ft4.kind == .lessless && split then
            ({ ft4 with kind := .less, text := ft4.text.take 1 },
             { ss3 with
               trailingWhitespace := 0
               column := ss3.column + 1
               stateStack := .tokenStashed :: ss3.stateStack })
          else (ft4, { ss3 with trailingWhitespace := 0 })
        let ft5 := st5.1
        let ss5 := st5.2
        let wt : FormatToken × ScanState :=
          match firstNewlinePos ft5.text with
          | none =>
              let w := columnWidthWithTabs ft5.text ss5.column cfg.tabWidth
              ({ ft5 with firstLineColumnWidth := w },
               { ss5 with column := ss5.column + w })
          | some p =>
              let w1 := columnWidthWithTabs (ft5.text.take p) ss5.column cfg.tabWidth
              let w2 := columnWidthWithTabs (afterLastNewline ft5.text) 0 cfg.tabWidth
              ({ ft5 with
                 isMultiline := true
                 firstLineColumnWidth := w1
                 lastLineColumnWidth := w2 },
               { ss5 with column := w2 })
    let ft6 := classifyToken cfg.forEachMacros cfg.macroBlockBegin
          cfg.macroBlockEnd prev wt.1
    some (ft6, { wt.2 with formatTok := ft6 })

/-- `getNextToken` as the source has it (shift tokens are split). -/
def getNextToken (wsFuel : Nat) (cfg : ScanCfg) (prev : Option FormatToken)
    (ss : ScanState) : Option (FormatToken × ScanState) :=
  getNextTokenAux true wsFuel cfg prev ss

/-- `tryMergePreviousTokens`: the three merge rules in their fixed priority,
applied to the stream tail; the conflict-marker rule also refreshes the
current-token pointer, which in the C++ aliases the pushed-back stream slot.
Result `none` propagates the undefined out-of-range case of the conflict
rule. -/
def applyMerges (st : FormatTokenLexer) : Option FormatTokenLexer :=
  match tryMerge_TMacro st.cfg.buffer st.cfg.tabWidth st.tokens with
  | some ts => some { st with tokens := ts }
  | none =>
      match tryMergeConflictMarkers st.cfg.buffer st.firstInLineIndex st.tokens with
      | none => none
      | some (some ts) =>
          some { st with
            tokens := ts
            scanSt := { st.scanSt with formatTok := ts.getLastD emptyFormatToken } }
      | some none =>
          match tryMergeLessLess st.tokens with
          | some ts => some { st with tokens := ts }
          | none => some st

/-- The `lex` loop, parametrised like `getNextTokenAux` and fueled: fetch a
token, append it, run the merge rules, update the first-in-line index, stop
once the last token is end-of-input. -/
def lexRunAux (split : Bool) : Nat → FormatTokenLexer → Option FormatTokenLexer
  | 0, _ => none
  | fuel + 1, st =>
      match getNextTokenAux split fuel st.cfg (st.tokens.getLast?) st.scanSt with
      | none => none
      | some (tok, ss) =>
          let st2 := { st with scanSt := ss, tokens := st.tokens ++ [tok] }
          match applyMerges st2 with
          | none => none
          | some st3 =>
              let back := st3.tokens.getLastD emptyFormatToken
              let st4 :=
                if back.userNewlinesBefore > 0 || back.isMultiline then
                  { st3 with firstInLineIndex := st3.tokens.length - 1 }
                else st3
              if back.kind == .eof then some st4 else lexRunAux split fuel st4

/-- `FormatTokenLexer::lex` (fueled). -/
def lexRun (fuel : Nat) (st : FormatTokenLexer) : Option FormatTokenLexer :=
  lexRunAux true fuel st

/-- Modelled from the spec: the direct single-token scan baseline of the
refinement claim; identical to `lexRun` except that two-character shift
tokens are not split and restashed. -/
def lexRunNoSplit (fuel : Nat) (st : FormatTokenLexer) : Option FormatTokenLexer :=
  lexRunAux false fuel st

/-- `FormatTokenLexer::resetLexer`: re-seat the raw scanner at the given
byte offset of the same buffer and clear the trailing-whitespace
accumulator.  Nothing else of the state is touched. -/
def resetLexer (st : FormatTokenLexer) (offset : Nat) : FormatTokenLexer :=
  { st with scanSt :=
      { st.scanSt with lexOff := offset, trailingWhitespace := 0 } }

/-- The initial state of a lexing pass (the constructor). -/
def mkLexer (buffer : List Char) (scan : Nat → TokKind × Nat)
    (tabWidth : Nat := 8) (forEachMacros : List (List Char) := [])
    (mbBegin : List Char → Bool := fun _ => false)
    (mbEnd : List Char → Bool := fun _ => false) : FormatTokenLexer where
  cfg := {
    buffer := buffer
    scan := scan
    tabWidth := tabWidth
    forEachMacros := forEachMacros
    macroBlockBegin := mbBegin
    macroBlockEnd := mbEnd }
  scanSt := {
    lexOff := 0
    isFirstToken := true
    stateStack := [.normal]
    column := 0
    trailingWhitespace := 0
    formattingDisabled := false
    formatTok := emptyFormatToken }
  tokens := []
  firstInLineIndex := 0

/-! ## Concrete inputs used by the claim theorems -/

/-- Raw-scanner behaviour on the buffer `x << y`: identifier, space trivia,
one two-character shift token, space trivia, identifier, end of input. -/
def c4Scan : Nat → TokKind × Nat := fun off =>
  if off == 0 then (.rawIdentifier, 1)
  else if off == 1 then (.unknown, 1)
  else if off == 2 then (.lessless, 2)
  else if off == 4 then (.unknown, 1)
  else if off == 5 then (.rawIdentifier, 1)
  else (.eof, 0)

/-- Initial pass state for the buffer `x << y`. -/
def c4St : FormatTokenLexer := mkLexer "x << y".toList c4Scan

/-- Raw-scanner behaviour on `vector<vector<int>>`: the scanner yields one
two-character `>>` token at the end. -/
def c5Scan : Nat → TokKind × Nat := fun off =>
  if off == 0 then (.rawIdentifier, 6)
  else if off == 6 then (.less, 1)
  else if off == 7 then (.rawIdentifier, 6)
  else if off == 13 then (.less, 1)
  else if off == 14 then (.rawIdentifier, 3)
  else if off == 17 then (.greatergreater, 2)
  else (.eof, 0)

/-- Initial pass state for the buffer `vector<vector<int>>`. -/
def c5St : FormatTokenLexer := mkLexer "vector<vector<int>>".toList c5Scan

/-- Raw-scanner behaviour on a file whose only line is the legacy conflict
start marker: `>>>>` followed by a newline.  The scanner yields two
two-character `>>` tokens, newline trivia, then end of input. -/
def c5CxScan : Nat → TokKind × Nat := fun off =>
  if off == 0 then (.greatergreater, 2)
  else if off == 2 then (.greatergreater, 2)
  else if off == 4 then (.unknown, 1)
  else (.eof, 0)

/-- Initial pass state for the buffer of four `>` and a newline. -/
def c5CxSt : FormatTokenLexer := mkLexer ">>>>\n".toList c5CxScan

/-- Raw-scanner behaviour on a format-off comment followed by `<<<`:
comment, newline trivia, a two-character shift token, a single less token,
end of input. -/
def c6Scan : Nat → TokKind × Nat := fun off =>
  if off == 0 then (.comment, 19)
  else if off == 19 then (.unknown, 1)
  else if off == 20 then (.lessless, 2)
  else if off == 22 then (.less, 1)
  else (.eof, 0)

/-- Initial pass state for the format-off buffer. -/
def c6St : FormatTokenLexer := mkLexer "// clang-format off\n<<<".toList c6Scan

/-- Raw-scanner behaviour on the empty buffer. -/
def c1Scan : Nat → TokKind × Nat := fun _ => (.eof, 0)

/-- Initial pass state for the empty buffer. -/
def c1St : FormatTokenLexer := mkLexer [] c1Scan

/-- The state the empty-buffer pass finishes in. -/
def c1Out : FormatTokenLexer := (lexRun 2 c1St).getD c1St

/-- A mid-pass lexer state with a pending stash (one stashed entry on the
state stack), accumulated trailing whitespace and one produced token. -/
def c7St : FormatTokenLexer :=
  { mkLexer "a >> b".toList c1Scan with
    scanSt := {
      lexOff := 4
      isFirstToken := false
      stateStack := [.tokenStashed, .normal]
      column := 3
      trailingWhitespace := 5
      formattingDisabled := false
      formatTok := emptyFormatToken }
    tokens := [emptyFormatToken]
    firstInLineIndex := 0 }

/-! ## Claim theorems -/

/-- The token stream both scans of the buffer `x << y` produce: identifier,
recombined shift token of text `<<` and width two, identifier, end of
input. -/
def c4Expected : List FormatToken :=
  [{ emptyFormatToken with
      kind := .identifier, length := 1, identInfo := some ['x'],
      text := ['x'], firstLineColumnWidth := 1, isFirst := true },
   { emptyFormatToken with
      kind := .lessless, loc := 2, length := 2, text := ['<', '<'],
      textOff := 2, originalColumn := 2, firstLineColumnWidth := 2,
      wsRangeBegin := 1, wsRangeEnd := 2 },
   { emptyFormatToken with
      kind := .identifier, loc := 5, length := 1, identInfo := some ['y'],
      text := ['y'], textOff := 5, originalColumn := 5,
      firstLineColumnWidth := 1, wsRangeBegin := 4, wsRangeEnd := 5 },
   { emptyFormatToken with
      kind := .eof, loc := 6, textOff := 6, originalColumn := 6,
      wsRangeBegin := 6, wsRangeEnd := 6 }]

/-- Claim C4: for an input where the scanner yields a single two-character
shift token whose neighbouring tokens are not less tokens (the buffer
`x << y`), the driver splits it via the stash and the recombination rule
collapses the halves back into one shift-left token of text `<<` with width
increased by one, so the final observable stream equals the stream of the
direct single-token scan. -/
theorem c4_shift_split_refines_direct_scan :
    (lexRun 12 c4St).map FormatTokenLexer.tokens = some c4Expected ∧
    (lexRunNoSplit 12 c4St).map FormatTokenLexer.tokens = some c4Expected ∧
    (lexRun 12 c4St).map FormatTokenLexer.tokens =
      (lexRunNoSplit 12 c4St).map FormatTokenLexer.tokens := by
  have h1 : (lexRun 12 c4St).map FormatTokenLexer.tokens = some c4Expected := by
    decide
  have h2 : (lexRunNoSplit 12 c4St).map FormatTokenLexer.tokens
      = some c4Expected := by
    decide
  exact ⟨h1, h2, h1.trans h2.symm⟩

/-- Claim C5 counterexample: on a file whose only line is `>>>>` (the
legacy conflict-start marker), the scanner yields two two-character `>>`
tokens, the driver splits them into four `>` tokens, and the
conflict-marker merge rule then recombines those adjacent `>` tokens into a
single token, so the final stream does not retain the `>` tokens at all:
it is one conflict-start token followed by end of input. -/
theorem c5_greater_retention_counterexample :
    c5CxSt.cfg.scan 0 = (.greatergreater, 2) ∧
    c5CxSt.cfg.scan 2 = (.greatergreater, 2) ∧
    (lexRun 12 c5CxSt).map (fun s => s.tokens.map (fun t => (t.kind, t.type))) =
      some [(.kwUnknownAnytype, .TT_ConflictStart), (.eof, .TT_Unknown)] := by
  refine ⟨by decide, by decide, by decide⟩

/-- Claim C5 amended: the driver splits a two-character `>>` token into two
separate `>` tokens, and the shift recombination rule never merges them
(whenever it rewrites the stream, the two collapsed tokens are both less
tokens), so outside conflict-marker lines adjacent `>` tokens are retained:
on `vector<vector<int>>` the final stream ends with two distinct `>`
tokens.  The conflict-marker rule, however, may collapse adjacent `>`
tokens on a line that begins with a marker word. -/
theorem c5_greater_retention_amended :
    (∀ ts ts', tryMergeLessLess ts = some ts' →
      (ts.reverse[1]?).map FormatToken.kind = some .less ∧
      (ts.reverse[2]?).map FormatToken.kind = some .less) ∧
    (lexRun 12 c5St).map (fun s => s.tokens.map (fun t => (t.kind, t.text))) =
      some [(.identifier, "vector".toList), (.less, "<".toList),
            (.identifier, "vector".toList), (.less, "<".toList),
            (.identifier, "int".toList), (.greater, ">".toList),
            (.greater, ">".toList), (.eof, [])] := by
  constructor
  · intro ts ts' h
    unfold tryMergeLessLess at h
    rcases hrev : ts.reverse with _ | ⟨c, _ | ⟨b, _ | ⟨a, rest⟩⟩⟩ <;>
      rw [hrev] at h <;> simp only [tryMergeLessLessRev] at h
    · simp at h
    · simp at h
    · simp at h
    · by_cases h1 : (c.kind == TokKind.less || b.kind != TokKind.less ||
          a.kind != TokKind.less || fourthTokenIsLess rest) = true
      · rw [if_pos h1] at h
        simp at h
      · rw [if_neg h1] at h
        simp only [Bool.or_eq_true, beq_iff_eq, bne_iff_ne, ne_eq,
          not_or, Bool.not_eq_true, not_not] at h1
        refine ⟨?_, ?_⟩
        · simp [h1.1.1.2]
        · simp [h1.1.2]
  · decide

/-- Claim C6 counterexample: in the file consisting of a format-off comment
followed by `<<<`, every token is fetched while the format-disable flag is
set except the sentinel comment itself, yet the synthesized stashed token
(the third token, the second `<`) is not marked finalized: the finalized
flags of the final stream are false, true, false, true, true. -/
theorem c6_finalized_counterexample :
    (lexRun 12 c6St).map
        (fun s => s.tokens.map (fun t => (t.kind, t.text, t.finalized))) =
      some [(.comment, "// clang-format off".toList, false),
            (.less, "<".toList, true),
            (.less, "<".toList, false),
            (.less, "<".toList, true),
            (.eof, [], true)] := by
  decide

/-- Claim C6 amended: every token read from the scanner is marked finalized
exactly when the format-disable flag is set at that moment and the token is
not the format-on sentinel comment (hence the off sentinel read while the
flag is clear is not finalized, every scanner token strictly between the
sentinels is, and the on sentinel is not); synthesized stashed tokens,
however, are never marked finalized, even inside a disabled region. -/
theorem c6_finalized_amended (cfg : ScanCfg) (ss : ScanState)
    (ft : FormatToken) (ss2 : ScanState) :
    (readRawToken cfg ss ft).1.finalized =
      (ss.formattingDisabled &&
        !(isOnSentinel (cfg.scan ss.lexOff).1
            (slice cfg.buffer ss.lexOff (cfg.scan ss.lexOff).2))) ∧
    (getStashedToken ss2).1.finalized = false := by
  constructor
  · unfold readRawToken
    by_cases hq : ((cfg.scan ss.lexOff).1 == TokKind.unknown &&
        (slice cfg.buffer ss.lexOff (cfg.scan ss.lexOff).2).head? == some '"')
        = true
    · simp only [hq, if_true]
      have hk : ¬ ((cfg.scan ss.lexOff).1 = TokKind.comment) := by
        intro hc
        rw [hc] at hq
        simp at hq
      simp [isOnSentinel, hk]
    · simp only [Bool.not_eq_true] at hq
      simp only [hq, if_false]
      by_cases hs : isOnSentinel (cfg.scan ss.lexOff).1
          (slice cfg.buffer ss.lexOff (cfg.scan ss.lexOff).2) = true
      · simp [hs]
      · simp only [Bool.not_eq_true] at hs
        simp [hs]
  · simp [getStashedToken, emptyFormatToken]

/-- Stream on which the shift recombination fires: a non-less token, two
adjacent whitespace-free less tokens, and a trailing non-less token. -/
def c5wToks : List FormatToken :=
  [{ emptyFormatToken with kind := .identifier },
   { emptyFormatToken with kind := .less },
   { emptyFormatToken with kind := .less },
   { emptyFormatToken with kind := .eof }]

/-- Witness for the amended claim C5: on a concrete stream the
recombination rule fires and the two collapsed tokens are indeed both less
tokens. -/
theorem c5_greater_retention_amended_witness :
    (c5wToks.reverse[1]?).map FormatToken.kind = some .less ∧
    (c5wToks.reverse[2]?).map FormatToken.kind = some .less :=
  c5_greater_retention_amended.1 c5wToks
    ((tryMergeLessLess c5wToks).getD []) (by rfl)

/-- Buffer whose second line is a conflict-start marker line. -/
def c2CxBuf : List Char := "\n<<<<<<< x".toList

/-- The sole buffered token: the first token of the marker line, carrying
one preceding newline (the conflict trigger) and starting at offset one. -/
def c2CxTok : FormatToken :=
  { emptyFormatToken with
    userNewlinesBefore := 1
    loc := 1
    kind := .less
    text := ['<']
    textOff := 1
    length := 2 }

/-- The token the conflict merge produces out of `c2CxTok`. -/
def c2CxMerged : FormatToken :=
  { c2CxTok with type := .TT_ConflictStart, kind := .kwUnknownAnytype }

/-- Claim C2 counterexample: when the just-appended token is itself the
token at `FirstInLineIndex` (first loop iteration on a file whose first
token follows a newline and opens a marker line), the collapsed range
excluding the just-appended token is empty, yet the merge still rewrites
the stream: the just-appended token is mutated in place (kind replaced,
conflict tag set) and appended again, so the mutated token appears twice
and the original just-appended token is not the last element. -/
theorem c2_conflict_merge_counterexample :
    tryMergeConflictMarkers c2CxBuf 0 [c2CxTok] =
      some (some [c2CxMerged, c2CxMerged]) ∧
    c2CxMerged ≠ c2CxTok := by
  refine ⟨by decide, by decide⟩

/-- Claim C2 amended: the conflict-marker merge changes the stream only
when the just-appended token has a preceding newline or is end-of-input;
when the leading word of the physical line of the token at
`FirstInLineIndex` (re-derived from the raw buffer) matches no marker the
stream is unchanged; when it matches, the stream becomes the prefix before
`FirstInLineIndex`, then the token at `FirstInLineIndex` tagged with the
marker type and an arbitrary placeholder kind, then the just-appended
token - except that when `FirstInLineIndex` is the index of the
just-appended token itself, the mutated token is also what is re-appended,
so it appears twice. -/
theorem c2_conflict_merge_amended (buf : List Char) (F : Nat)
    (tokens : List FormatToken) (back fil : FormatToken)
    (hback : tokens.getLast? = some back)
    (hfil : tokens[F]? = some fil) :
    (back.userNewlinesBefore = 0 ∧ back.kind ≠ .eof →
      tryMergeConflictMarkers buf F tokens = some none) ∧
    (markerType (conflictLineWord buf fil.loc) = .TT_Unknown →
      tryMergeConflictMarkers buf F tokens = some none) ∧
    ((back.userNewlinesBefore > 0 ∨ back.kind = .eof) →
      markerType (conflictLineWord buf fil.loc) ≠ .TT_Unknown →
      tryMergeConflictMarkers buf F tokens =
        some (some (tokens.take F ++
          [{ fil with
              type := markerType (conflictLineWord buf fil.loc)
              kind := .kwUnknownAnytype }] ++
          [if F + 1 == tokens.length then
              { fil with
                type := markerType (conflictLineWord buf fil.loc)
                kind := .kwUnknownAnytype }
            else back]))) := by
  unfold tryMergeConflictMarkers
  rw [hback, hfil]
  dsimp only
  refine ⟨?_, ?_, ?_⟩
  · rintro ⟨h0, hne⟩
    rw [if_pos (by simp [h0, hne])]
  · intro hm
    by_cases hc : (back.userNewlinesBefore == 0 && back.kind != TokKind.eof) = true
    · rw [if_pos hc]
    · rw [if_neg hc]
      rw [if_pos (by simp [hm])]
  · intro htrig hm
    have hc : ¬((back.userNewlinesBefore == 0 && back.kind != TokKind.eof) = true) := by
      rcases htrig with h | h
      · simp only [Bool.and_eq_true, beq_iff_eq, bne_iff_ne, ne_eq, not_and]
        intro h0
        omega
      · simp [h]
    rw [if_neg hc]
    rw [if_neg (by simp [hm])]

/-- Buffer for the amended-claim witness: a marker line after a blank
first line, with further content below. -/
def c2wBuf : List Char := "\n<<<<<<< h\n".toList

/-- First token of the marker line. -/
def c2wA : FormatToken :=
  { emptyFormatToken with
    loc := 1
    userNewlinesBefore := 1
    kind := .less
    text := ['<']
    textOff := 1 }

/-- The just-appended trigger token: end of input after the marker line. -/
def c2wB : FormatToken :=
  { emptyFormatToken with kind := .eof, loc := 11, userNewlinesBefore := 1 }

/-- Witness for the amended claim C2 at a concrete non-aliased input. -/
theorem c2_conflict_merge_amended_witness :
    tryMergeConflictMarkers c2wBuf 0 [c2wA, c2wB] =
      some (some ([c2wA, c2wB].take 0 ++
        [{ c2wA with
            type := markerType (conflictLineWord c2wBuf c2wA.loc)
            kind := .kwUnknownAnytype }] ++
        [if 0 + 1 == [c2wA, c2wB].length then
            { c2wA with
              type := markerType (conflictLineWord c2wBuf c2wA.loc)
              kind := .kwUnknownAnytype }
          else c2wB])) :=
  (c2_conflict_merge_amended c2wBuf 0 [c2wA, c2wB] c2wB c2wA (by decide)
      (by decide)).2.2 (Or.inl (by decide)) (by decide)

/-- Buffer holding the four-token macro-string construct. -/
def c3CxBuf : List Char := "_T(\"x\")".toList

/-- A token with text `_T` whose kind is not identifier. -/
def c3CxMac : FormatToken :=
  { emptyFormatToken with
    kind := .kwUnknownAnytype
    text := "_T".toList
    textOff := 0
    loc := 0
    length := 2 }

/-- Left parenthesis token of the construct. -/
def c3CxLp : FormatToken :=
  { emptyFormatToken with
    kind := .lParen
    text := ['(']
    textOff := 2
    loc := 2
    length := 1 }

/-- String-literal token of the construct. -/
def c3CxStr : FormatToken :=
  { emptyFormatToken with
    kind := .stringLiteral
    text := '"' :: 'x' :: ['"']
    textOff := 3
    loc := 3
    length := 3 }

/-- Right parenthesis token of the construct. -/
def c3CxRp : FormatToken :=
  { emptyFormatToken with
    kind := .rParen
    text := [')']
    textOff := 6
    loc := 6
    length := 1 }

/-- Claim C3 counterexample: the macro-string merge does not require the
`_T` token to be an identifier - only its text is checked.  On a stream
whose fourth-from-last token has text `_T` but a non-identifier kind, the
kind check of the claim fails yet the stream is still rewritten. -/
theorem c3_tmacro_counterexample :
    (tryMerge_TMacro c3CxBuf 8 [c3CxMac, c3CxLp, c3CxStr, c3CxRp]).isSome
      = true ∧
    c3CxMac.kind ≠ .identifier ∧ c3CxMac.text = "_T".toList := by
  refine ⟨by decide, by decide, by decide⟩

/-- The collapsed token of the macro-string merge: the string token carrying
the text span from the `_T` text start to the end of the closing
parenthesis, with the position, whitespace and newline metadata of the `_T`
token and a recomputed width. -/
def tMacroMergedSpec (buf : List Char) (tab : Nat)
    (mac str last : FormatToken) : FormatToken :=
  { str with
    text := slice buf mac.textOff (last.textOff + last.text.length - mac.textOff)
    textOff := mac.textOff
    isFirst := mac.isFirst
    lastNewlineOffset := mac.lastNewlineOffset
    wsRangeBegin := mac.wsRangeBegin
    wsRangeEnd := mac.wsRangeEnd
    originalColumn := mac.originalColumn
    firstLineColumnWidth :=
      columnWidthWithTabs
        (slice buf mac.textOff (last.textOff + last.text.length - mac.textOff))
        mac.originalColumn tab
    userNewlinesBefore := mac.userNewlinesBefore
    hasUnescapedNewlineBefore := mac.hasUnescapedNewlineBefore }

/-- Claim C3 amended: if the last four tokens are a token with exact text
`_T` (its kind is not examined), a left parenthesis, a non-multi-line
string literal and a right parenthesis, the merge collapses all four into
the single string literal described by `tMacroMergedSpec`; conversely,
whenever the merge changes the stream, the tail had exactly that shape (so
a multi-line string or any failing kind or text check leaves the stream
unchanged). -/
theorem c3_tmacro_amended :
    (∀ (buf : List Char) (tab : Nat) (rest : List FormatToken)
        (mac lp str last : FormatToken),
      last.kind = .rParen → str.kind = .stringLiteral →
      str.isMultiline = false → lp.kind = .lParen → mac.text = "_T".toList →
      tryMerge_TMacro buf tab (rest ++ [mac, lp, str, last]) =
        some (rest ++ [tMacroMergedSpec buf tab mac str last])) ∧
    (∀ buf tab ts ts', tryMerge_TMacro buf tab ts = some ts' →
      tMacroTailShape ts = true) := by
  constructor
  · intro buf tab rest mac lp str last h1 h2 h3 h4 h5
    unfold tryMerge_TMacro
    have hrev : (rest ++ [mac, lp, str, last]).reverse =
        last :: str :: lp :: mac :: rest.reverse := by
      simp
    rw [hrev]
    simp only [tryMergeTMacroRev]
    rw [if_neg (by simp [h1]), if_neg (by simp [h2, h3]),
      if_neg (by simp [h4]), if_neg (by simp [h5])]
    simp [tMacroMergedSpec]
  · intro buf tab ts ts' h
    unfold tryMerge_TMacro at h
    rcases hrev : ts.reverse with
      _ | ⟨last, _ | ⟨str, _ | ⟨lp, _ | ⟨mac, rest⟩⟩⟩⟩ <;>
      rw [hrev] at h <;> simp only [tryMergeTMacroRev] at h
    · simp at h
    · simp at h
    · simp at h
    · simp at h
    · unfold tMacroTailShape
      rw [hrev]
      by_cases k1 : (last.kind != TokKind.rParen) = true
      · rw [if_pos k1] at h
        simp at h
      · rw [if_neg k1] at h
        by_cases k2 : (str.kind != TokKind.stringLiteral || str.isMultiline)
            = true
        · rw [if_pos k2] at h
          simp at h
        · rw [if_neg k2] at h
          by_cases k3 : (lp.kind != TokKind.lParen) = true
          · rw [if_pos k3] at h
            simp at h
          · rw [if_neg k3] at h
            by_cases k4 : (mac.text != "_T".toList) = true
            · rw [if_pos k4] at h
              simp at h
            · simp only [Bool.not_eq_true, bne_eq_false_iff_eq,
                Bool.or_eq_false_iff] at k1 k2 k3 k4
              simp [k1, k2.1, k2.2, k3, k4]

/-- Buffer for the amended-claim C3 witness. -/
def c3wBuf : List Char := "_T(\"ok\")".toList

/-- A proper identifier token of text `_T`. -/
def c3wMac : FormatToken :=
  { emptyFormatToken with
    kind := .identifier
    identInfo := some "_T".toList
    text := "_T".toList
    textOff := 0
    loc := 0
    length := 2 }

/-- Left parenthesis of the witness construct. -/
def c3wLp : FormatToken :=
  { emptyFormatToken with
    kind := .lParen
    text := ['(']
    textOff := 2
    loc := 2
    length := 1 }

/-- String literal of the witness construct. -/
def c3wStr : FormatToken :=
  { emptyFormatToken with
    kind := .stringLiteral
    text := '"' :: 'o' :: 'k' :: ['"']
    textOff := 3
    loc := 3
    length := 4 }

/-- Right parenthesis of the witness construct. -/
def c3wRp : FormatToken :=
  { emptyFormatToken with
    kind := .rParen
    text := [')']
    textOff := 7
    loc := 7
    length := 1 }

/-- Witness for the amended claim C3 at a concrete input. -/
theorem c3_tmacro_amended_witness :
    tryMerge_TMacro c3wBuf 8 ([] ++ [c3wMac, c3wLp, c3wStr, c3wRp]) =
      some ([] ++ [tMacroMergedSpec c3wBuf 8 c3wMac c3wStr c3wRp]) :=
  c3_tmacro_amended.1 c3wBuf 8 [] c3wMac c3wLp c3wStr c3wRp
    (by decide) (by decide) (by decide) (by decide) (by decide)

/-- Claim C8: a token is tagged for-each-macro by the classifier exactly
when its interned identifier text is a member of the configured name set
and the immediately preceding stream token does not intern to the
preprocessor define keyword; moreover the type field is single-valued, so a
for-each token is never also tagged macro-block begin or end. -/
theorem c8_foreach_tagging (fe : List (List Char))
    (mbB mbE : List Char → Bool) (prev : Option FormatToken)
    (ft : FormatToken) (h : ft.type ≠ .TT_ForEachMacro) :
    ((classifyToken fe mbB mbE prev ft).type = .TT_ForEachMacro ↔
      identInForEachSet fe ft = true ∧ prevTokenIsPPDefine prev = false) ∧
    ((classifyToken fe mbB mbE prev ft).type = .TT_ForEachMacro →
      (classifyToken fe mbB mbE prev ft).type ≠ .TT_MacroBlockBegin ∧
      (classifyToken fe mbB mbE prev ft).type ≠ .TT_MacroBlockEnd) := by
  have hcls : classifyToken fe mbB mbE prev ft =
      if (!prevTokenIsPPDefine prev && identInForEachSet fe ft) = true then
        { ft with type := .TT_ForEachMacro }
      else if (ft.kind == TokKind.identifier) = true then
        if mbB ft.text = true then { ft with type := .TT_MacroBlockBegin }
        else if mbE ft.text = true then { ft with type := .TT_MacroBlockEnd }
        else ft
      else ft := rfl
  constructor
  · by_cases hd : prevTokenIsPPDefine prev <;>
      by_cases hf : identInForEachSet fe ft
    · refine iff_of_false ?_ (by simp [hd])
      rw [hcls, if_neg (by simp [hd])]
      split
      · split
        · simp
        · split
          · simp
          · exact h
      · exact h
    · refine iff_of_false ?_ (by simp [hf])
      rw [hcls, if_neg (by simp [hf])]
      split
      · split
        · simp
        · split
          · simp
          · exact h
      · exact h
    · refine iff_of_true ?_ ⟨hf, by simp [hd]⟩
      rw [hcls, if_pos (by simp [hd, hf])]
    · refine iff_of_false ?_ (by simp [hf])
      rw [hcls, if_neg (by simp [hf])]
      split
      · split
        · simp
        · split
          · simp
          · exact h
      · exact h
  · intro heq
    rw [heq]
    exact ⟨by decide, by decide⟩

/-- The for-each name set of the witness. -/
def c8Fe : List (List Char) := ["FOREACH".toList]

/-- An identifier token interning to `FOREACH`. -/
def c8Ft : FormatToken :=
  { emptyFormatToken with
    kind := .identifier
    identInfo := some "FOREACH".toList
    text := "FOREACH".toList }

/-- Witness for claim C8: `FOREACH` used with no preceding define keyword
is tagged for-each. -/
theorem c8_foreach_tagging_witness :
    (classifyToken c8Fe (fun _ => false) (fun _ => false) none c8Ft).type
      = .TT_ForEachMacro :=
  ((c8_foreach_tagging c8Fe (fun _ => false) (fun _ => false) none c8Ft
      (by decide)).1).mpr ⟨by decide, by decide⟩

/-- Claim C7 counterexample: `resetLexer` does not discard the pending
stash state.  On a state whose state stack holds a stashed entry, the stack
is unchanged after a reset to offset seven, so the next fetched token would
still be the synthesized stashed token. -/
theorem c7_reset_counterexample :
    (resetLexer c7St 7).scanSt.stateStack.head? = some LexerState.tokenStashed ∧
    (resetLexer c7St 7).scanSt.lexOff = 7 ∧
    (resetLexer c7St 7).scanSt.trailingWhitespace = 0 := by
  decide

/-- Claim C7 amended: a reset re-seats the scanner at the given byte offset
and discards the accumulated trailing-whitespace state, leaving every
previously produced token unchanged; the pending stash state is not
discarded (the state stack is left as it was). -/
theorem c7_reset_amended (st : FormatTokenLexer) (off : Nat) :
    (resetLexer st off).tokens = st.tokens ∧
    (resetLexer st off).scanSt.lexOff = off ∧
    (resetLexer st off).scanSt.trailingWhitespace = 0 ∧
    (resetLexer st off).scanSt.stateStack = st.scanSt.stateStack ∧
    (resetLexer st off).firstInLineIndex = st.firstInLineIndex := by
  simp [resetLexer]

/-- Claim C9: during trivia folding, a newline character increments the
pending token newline count, records the newline byte offset within the
preceding whitespace, resets the running column to zero, and sets the
unescaped-newline flag to true exactly when the number of consecutive
backslashes directly before the newline (after first skipping a carriage
return sitting directly before it) is even, and to false when it is odd. -/
theorem c9_newline_folding (tab wsLen : Nat) (full : List Char) (i : Nat)
    (next : Option Char) (ft : FormatToken) (col : Nat) :
    foldWsChar tab wsLen full i '\n' next ft col =
      ({ ft with
          userNewlinesBefore := ft.userNewlinesBefore + 1
          hasUnescapedNewlineBefore := backslashesBefore full i % 2 == 0
          lastNewlineOffset := wsLen + i + 1 }, 0) := by
  have h : ('\n' == '\n') = true := by decide
  rcases Nat.mod_two_eq_zero_or_one (backslashesBefore full i) with h2 | h2 <;>
    simp [foldWsChar, escapesNewline, h2]

/-- Claim C10: every synthesized stashed token has an empty
preceding-whitespace range, zero preceding newlines, a column width of
exactly one, and an original column one greater than that of the first
half; consequently the whitespace test of the shift recombination rule (a
nonempty preceding-whitespace range forces failure) always succeeds on the
stashed second half. -/
theorem c10_stashed_token_fields (ss : ScanState) :
    (getStashedToken ss).1.wsRangeBegin = (getStashedToken ss).1.wsRangeEnd ∧
    (getStashedToken ss).1.userNewlinesBefore = 0 ∧
    (getStashedToken ss).1.firstLineColumnWidth = 1 ∧
    (getStashedToken ss).1.originalColumn = ss.formatTok.originalColumn + 1 ∧
    ((getStashedToken ss).1.wsRangeBegin != (getStashedToken ss).1.wsRangeEnd)
      = false := by
  simp [getStashedToken, emptyFormatToken]

/-! ## Machinery for the exactly-one-end-of-input invariant -/

lemma dropLast_append_two (rest : List FormatToken) (a b : FormatToken) :
    (rest ++ [a, b]).dropLast = rest ++ [a] := by
  have h : rest ++ [a, b] = (rest ++ [a]) ++ [b] := by simp
  rw [h, List.dropLast_concat]

lemma dropLast_append_three (rest : List FormatToken) (a b c : FormatToken) :
    (rest ++ [a, b, c]).dropLast = rest ++ [a, b] := by
  have h : rest ++ [a, b, c] = (rest ++ [a, b]) ++ [c] := by simp
  rw [h, List.dropLast_concat]

lemma dropLast_append_four (rest : List FormatToken) (a b c d : FormatToken) :
    (rest ++ [a, b, c, d]).dropLast = rest ++ [a, b, c] := by
  have h : rest ++ [a, b, c, d] = (rest ++ [a, b, c]) ++ [d] := by simp
  rw [h, List.dropLast_concat]

lemma mem_dropLast_or_eq_getLastD (l : List FormatToken) (t : FormatToken)
    (h : t ∈ l) : t ∈ l.dropLast ∨ t = l.getLastD emptyFormatToken := by
  induction l with
  | nil => cases h
  | cons a l ih =>
      cases l with
      | nil =>
          right
          simpa using h
      | cons b l =>
          rcases List.mem_cons.mp h with rfl | hmem
          · left
            simp
          · rcases ih hmem with hin | heq
            · left
              simpa using Or.inr hin
            · right
              simpa using heq

lemma take_mem_dropLast (l : List FormatToken) (F : Nat) (hF : F < l.length)
    (t : FormatToken) (h : t ∈ l.take F) : t ∈ l.dropLast := by
  have heq : l.take F = l.dropLast.take F := by
    rw [List.dropLast_eq_take, List.take_take]
    have : min F (l.length - 1) = F := by omega
    rw [this]
  rw [heq] at h
  exact List.take_subset _ _ h

/-- Whenever the shift recombination rewrites the stream, the input had a
three-token tail and the output replaces the two middle less tokens by one
shift-left token, keeping the last token. -/
lemma tryMergeLessLess_shape (ts ts' : List FormatToken)
    (h : tryMergeLessLess ts = some ts') :
    ∃ (rest : List FormatToken) (a b c a' : FormatToken),
      ts = rest ++ [a, b, c] ∧ ts' = rest ++ [a', c] ∧ a'.kind = .lessless := by
  unfold tryMergeLessLess at h
  rcases hrev : ts.reverse with _ | ⟨c, _ | ⟨b, _ | ⟨a, rest⟩⟩⟩ <;>
    rw [hrev] at h <;> simp only [tryMergeLessLessRev] at h
  · simp at h
  · simp at h
  · simp at h
  · by_cases h1 : (c.kind == TokKind.less || b.kind != TokKind.less ||
        a.kind != TokKind.less || fourthTokenIsLess rest) = true
    · rw [if_pos h1] at h
      simp at h
    · rw [if_neg h1] at h
      by_cases h2 : (b.wsRangeBegin != b.wsRangeEnd) = true
      · rw [if_pos h2] at h
        simp at h
      · rw [if_neg h2] at h
        simp only [Option.map_some', Option.some.injEq] at h
        refine ⟨rest.reverse, a, b, c,
          { a with
            kind := .lessless
            text := "<<".toList
            firstLineColumnWidth := a.firstLineColumnWidth + 1 }, ?_, ?_, rfl⟩
        · have := congrArg List.reverse hrev
          simpa using this
        · rw [← h]
          simp

/-- Whenever the macro-string merge rewrites the stream, the input had a
four-token tail and the output replaces it by one string-literal token. -/
lemma tryMergeTMacro_shape (buf : List Char) (tab : Nat)
    (ts ts' : List FormatToken) (h : tryMerge_TMacro buf tab ts = some ts') :
    ∃ (rest : List FormatToken) (mac lp str last str' : FormatToken),
      ts = rest ++ [mac, lp, str, last] ∧ ts' = rest ++ [str'] ∧
      str'.kind = .stringLiteral := by
  unfold tryMerge_TMacro at h
  rcases hrev : ts.reverse with
    _ | ⟨last, _ | ⟨str, _ | ⟨lp, _ | ⟨mac, rest⟩⟩⟩⟩ <;>
    rw [hrev] at h <;> simp only [tryMergeTMacroRev] at h
  · simp at h
  · simp at h
  · simp at h
  · simp at h
  · by_cases k1 : (last.kind != TokKind.rParen) = true
    · rw [if_pos k1] at h
      simp at h
    · rw [if_neg k1] at h
      by_cases k2 : (str.kind != TokKind.stringLiteral || str.isMultiline)
          = true
      · rw [if_pos k2] at h
        simp at h
      · rw [if_neg k2] at h
        by_cases k3 : (lp.kind != TokKind.lParen) = true
        · rw [if_pos k3] at h
          simp at h
        · rw [if_neg k3] at h
          by_cases k4 : (mac.text != "_T".toList) = true
          · rw [if_pos k4] at h
            simp at h
          · rw [if_neg k4] at h
            simp only [Option.map_some', Option.some.injEq] at h
            have hstr : str.kind = .stringLiteral := by
              simp only [Bool.or_eq_false_iff, Bool.not_eq_true,
                bne_eq_false_iff_eq] at k2
              exact k2.1
            refine ⟨rest.reverse, mac, lp, str, last,
              { str with
                text := slice buf mac.textOff
                  (last.textOff + last.text.length - mac.textOff)
                textOff := mac.textOff
                isFirst := mac.isFirst
                lastNewlineOffset := mac.lastNewlineOffset
                wsRangeBegin := mac.wsRangeBegin
                wsRangeEnd := mac.wsRangeEnd
                originalColumn := mac.originalColumn
                firstLineColumnWidth := columnWidthWithTabs
                  (slice buf mac.textOff
                    (last.textOff + last.text.length - mac.textOff))
                  mac.originalColumn tab
                userNewlinesBefore := mac.userNewlinesBefore
                hasUnescapedNewlineBefore := mac.hasUnescapedNewlineBefore },
              ?_, ?_, ?_⟩
            · have := congrArg List.reverse hrev
              simpa using this
            · rw [← h]
              simp
            · exact hstr

/-- Whenever the conflict-marker merge rewrites the stream, the result is
the prefix before the first-in-line index, one token of the placeholder
kind, and a final token that is either that same mutated token or the old
last token. -/
lemma tryMergeConflictMarkers_shape (buf : List Char) (F : Nat)
    (ts ts' : List FormatToken)
    (h : tryMergeConflictMarkers buf F ts = some (some ts')) :
    ∃ (m x : FormatToken), F < ts.length ∧ m.kind = .kwUnknownAnytype ∧
      ts' = ts.take F ++ [m] ++ [x] ∧
      (x = m ∨ ts.getLast? = some x) := by
  unfold tryMergeConflictMarkers at h
  rcases hlast : ts.getLast? with _ | back <;> rw [hlast] at h
  · simp at h
  · dsimp only at h
    by_cases h1 : (back.userNewlinesBefore == 0 && back.kind != TokKind.eof)
        = true
    · rw [if_pos h1] at h
      simp at h
    · rw [if_neg h1] at h
      rcases hfil : ts[F]? with _ | fil <;> rw [hfil] at h
      · simp at h
      · dsimp only at h
        by_cases h2 : (markerType (conflictLineWord buf fil.loc) ==
            TokenType.TT_Unknown) = true
        · rw [if_pos h2] at h
          simp at h
        · rw [if_neg h2] at h
          simp only [Option.some.injEq] at h
          refine ⟨{ fil with
              type := markerType (conflictLineWord buf fil.loc)
              kind := .kwUnknownAnytype }, _, ?_, rfl, h.symm, ?_⟩
          · exact (List.getElem?_eq_some.mp hfil).1
          · by_cases h3 : (F + 1 == ts.length) = true
            · rw [if_pos h3]
              exact Or.inl rfl
            · rw [if_neg h3]
              exact Or.inr rfl

/-- The merge engine preserves the invariant that no token before the last
one is an end-of-input token, and keeps the stream nonempty. -/
lemma applyMerges_noEof (st st' : FormatTokenLexer)
    (h : applyMerges st = some st') (hne : st.tokens ≠ [])
    (hno : ∀ t ∈ st.tokens.dropLast, t.kind ≠ .eof) :
    st'.tokens ≠ [] ∧ ∀ t ∈ st'.tokens.dropLast, t.kind ≠ .eof := by
  unfold applyMerges at h
  rcases hm1 : tryMerge_TMacro st.cfg.buffer st.cfg.tabWidth st.tokens
      with _ | ts1 <;> rw [hm1] at h
  · dsimp only at h
    rcases hm2 : tryMergeConflictMarkers st.cfg.buffer st.firstInLineIndex
        st.tokens with _ | o2 <;> rw [hm2] at h
    · simp at h
    · rcases o2 with _ | ts2
      · dsimp only at h
        rcases hm3 : tryMergeLessLess st.tokens with _ | ts3 <;> rw [hm3] at h
        · dsimp only at h
          obtain rfl : st = st' := Option.some.inj h
          exact ⟨hne, hno⟩
        · dsimp only at h
          obtain rfl := Option.some.inj h
          obtain ⟨rest, a, b, c, a', hts, hts', hk⟩ :=
            tryMergeLessLess_shape st.tokens ts3 hm3
          constructor
          · simp [hts']
          · intro t ht
            rw [hts', dropLast_append_two] at ht
            rcases List.mem_append.mp ht with hin | hin
            · apply hno
              rw [hts, dropLast_append_three]
              exact List.mem_append_left _ hin
            · have heq : t = a' := by simpa using hin
              rw [heq, hk]
              intro hc
              cases hc
      · dsimp only at h
        obtain rfl := Option.some.inj h
        obtain ⟨m, x, hF, hmk, hts', hx⟩ :=
          tryMergeConflictMarkers_shape st.cfg.buffer st.firstInLineIndex
            st.tokens ts2 hm2
        constructor
        · simp [hts']
        · intro t ht
          have hts2 : ts2 = (st.tokens.take st.firstInLineIndex ++ [m]) ++ [x] := by
            rw [hts']
          rw [hts2, List.dropLast_concat] at ht
          rcases List.mem_append.mp ht with hin | hin
          · exact hno t (take_mem_dropLast st.tokens st.firstInLineIndex hF t hin)
          · have heq : t = m := by simpa using hin
            rw [heq, hmk]
            intro hc
            cases hc
  · dsimp only at h
    obtain rfl := Option.some.inj h
    obtain ⟨rest, mac, lp, str, last, str', hts, hts', hk⟩ :=
      tryMergeTMacro_shape st.cfg.buffer st.cfg.tabWidth st.tokens ts1 hm1
    constructor
    · simp [hts']
    · intro t ht
      rw [hts', List.dropLast_concat] at ht
      apply hno
      rw [hts, dropLast_append_four]
      exact List.mem_append_left _ ht

/-- The lex loop invariant: started from a stream with no end-of-input
token, a finished run ends in a nonempty stream whose last token is
end-of-input and whose earlier tokens never are. -/
lemma lexRunAux_eof_invariant (split : Bool) :
    ∀ (fuel : Nat) (st st' : FormatTokenLexer),
      lexRunAux split fuel st = some st' →
      (∀ t ∈ st.tokens, t.kind ≠ .eof) →
      st'.tokens ≠ [] ∧
        (st'.tokens.getLastD emptyFormatToken).kind = .eof ∧
        ∀ t ∈ st'.tokens.dropLast, t.kind ≠ .eof := by
  intro fuel
  induction fuel with
  | zero =>
      intro st st' h hno
      simp [lexRunAux] at h
  | succ n ih =>
      intro st st' h hno
      rw [lexRunAux] at h
      rcases hg : getNextTokenAux split n st.cfg st.tokens.getLast? st.scanSt
          with _ | pr <;> rw [hg] at h
      · simp at h
      · obtain ⟨tok, ss⟩ := pr
        dsimp only at h
        rcases hm : applyMerges { st with scanSt := ss, tokens := st.tokens ++ [tok] }
            with _ | st3 <;> rw [hm] at h
        · simp at h
        · dsimp only at h
          obtain ⟨hne3, hno3⟩ :=
            applyMerges_noEof
              { st with scanSt := ss, tokens := st.tokens ++ [tok] } st3 hm
              (by simp)
              (by
                intro t ht
                apply hno
                simpa using ht)
          have htok4 :
              (if (st3.tokens.getLastD emptyFormatToken).userNewlinesBefore > 0
                  || (st3.tokens.getLastD emptyFormatToken).isMultiline then
                { st3 with firstInLineIndex := st3.tokens.length - 1 }
              else st3).tokens = st3.tokens := by
            split <;> rfl
          by_cases hb : ((st3.tokens.getLastD emptyFormatToken).kind ==
              TokKind.eof) = true
          · rw [if_pos hb] at h
            obtain rfl := Option.some.inj h
            rw [htok4]
            exact ⟨hne3, by simpa using hb, hno3⟩
          · rw [if_neg hb] at h
            apply ih _ st' h
            rw [htok4]
            intro t ht
            rcases mem_dropLast_or_eq_getLastD st3.tokens t ht with hin | heq
            · exact hno3 t hin
            · rw [heq]
              intro hc
              apply hb
              rw [beq_iff_eq]
              exact hc

/-- Claim C1: for every input and every scanner behaviour, a finished lex
run returns a nonempty token sequence whose last element is the
end-of-input token while no earlier element is, even after the merge rules
have collapsed tail ranges. -/
theorem c1_lex_exactly_one_eof (fuel : Nat) (st st' : FormatTokenLexer)
    (hinit : st.tokens = []) (hrun : lexRun fuel st = some st') :
    st'.tokens ≠ [] ∧
    (st'.tokens.getLastD emptyFormatToken).kind = .eof ∧
    st'.tokens.dropLast.all (fun t => t.kind != .eof) = true := by
  obtain ⟨h1, h2, h3⟩ :=
    lexRunAux_eof_invariant true fuel st st' hrun (by simp [hinit])
  refine ⟨h1, h2, ?_⟩
  rw [List.all_eq_true]
  intro t ht
  simpa [bne_iff_ne] using h3 t ht

/-- Witness for claim C1: the empty-input run finishes in the stream that
is exactly one end-of-input token. -/
theorem c1_lex_exactly_one_eof_witness :
    c1Out.tokens ≠ [] ∧
    (c1Out.tokens.getLastD emptyFormatToken).kind = .eof ∧
    c1Out.tokens.dropLast.all (fun t => t.kind != .eof) = true :=
  c1_lex_exactly_one_eof 2 c1St c1Out rfl (by rfl)

end CPPFormat
